import Mathlib

/-!
A verification development for the calls_mvp video-call signaling server
(Go sources under internal/server, internal/chat, internal/recording and the
models and auth packages).

The Go code is shallowly embedded: Go maps become association lists over
String keys, Go channels become an explicit buffer plus a closed flag,
time.Time values become Nat (nanoseconds), and the opaque interface{}
payloads carried by signaling events become String.  Each critical section
guarded by a sync.RWMutex in the source is modelled as one atomic operation,
which is faithful because every handler holds the corresponding lock for the
whole section (writers exclude readers and other writers).
-/

namespace CallsMvp

/-! ## Association-list model of Go maps -/

/-- Lookup in a Go map modelled as an association list. -/
def alistLookup {β : Type} : List (String × β) → String → Option β
  | [], _ => none
  | p :: rest, k => if p.1 = k then some p.2 else alistLookup rest k

/-- Go map assignment m[k] = v: replaces the entry for k when present,
otherwise adds it. -/
def alistInsert {β : Type} : List (String × β) → String → β → List (String × β)
  | [], k, v => [(k, v)]
  | p :: rest, k, v => if p.1 = k then (k, v) :: rest else p :: alistInsert rest k v

/-- Go delete(m, k): removes every entry whose key is k. -/
def alistErase {β : Type} : List (String × β) → String → List (String × β)
  | [], _ => []
  | p :: rest, k => if p.1 = k then alistErase rest k else p :: alistErase rest k

/-! ## Signaling data model (models package) -/

/-- models.SignalMessage: Type, Data, Timestamp, SenderID.  Data is the
opaque interface{} payload (the SDP/ICE blob), modelled as a String the
router never inspects; Timestamp (time.Time) is a Nat. -/
structure SignalMessage where
  mtype : String
  data : String
  timestamp : Nat
  senderID : String
deriving DecidableEq

/-- Client.Signal is make(chan interface{}, 100) (joinRoomHandler,
server.go:357): a Go channel, modelled as its pending buffer (FIFO) plus a
closed flag. -/
structure SignalChan where
  closed : Bool
  buf : List SignalMessage
deriving DecidableEq

/-- The capacity of every Client.Signal channel (the literal 100 in
server.go:357). -/
def signalCapacity : Nat := 100

/-- A non-blocking Go send, select { case ch <- m: default: }
(server.go:556-565).  In Go a send on a closed channel panics even inside a
select, so a closed channel yields none (panic); otherwise the message is
appended when the buffer has room (some (ch, true)) and dropped when the
buffer is full (some (ch, false)), the default branch. -/
def trySend (ch : SignalChan) (m : SignalMessage) : Option (SignalChan × Bool) :=
  if ch.closed then none
  else if ch.buf.length < signalCapacity then
    some ({ ch with buf := ch.buf ++ [m] }, true)
  else some (ch, false)

/-- models.Client, with the fields the server logic touches: ID, UserID,
Username, Signal, JoinedAt.  The pion transport connection (Conn) is
external; it enters the model only through the events it raises
(RoomOp.broadcast and RoomOp.connClosed below).  Signal is an Option
because the source guards sends with otherClient.Signal != nil
(server.go:555); every client the server builds carries a real channel. -/
structure Client where
  id : String
  userID : String
  username : String
  signal : Option SignalChan
  joinedAt : Nat
deriving DecidableEq

/-- server.generateClientID: fmt.Sprintf("client_%d", time.Now().UnixNano()),
with the nanosecond clock value t as a parameter. -/
def generateClientID (t : Nat) : String := "client_" ++ Nat.repr t

/-- The client built by joinRoomHandler (server.go:352-359): a fresh open
Signal channel of capacity 100 and the authenticated identity. -/
def mkClient (cid userID username : String) (t : Nat) : Client :=
  { id := cid, userID := userID, username := username
    signal := some { closed := false, buf := [] }, joinedAt := t }

/-! ## The ICE-candidate fan-out (setupWebRTCEvents, server.go:550-570) -/

/-- The SignalMessage built for each recipient in the OnICECandidate
handler (server.go:557-562): type "ice-candidate", the candidate payload
passed through, the current time, and the sender's client ID. -/
def iceMessage (senderID payload : String) (now : Nat) : SignalMessage :=
  { mtype := "ice-candidate", data := payload, timestamp := now
    senderID := senderID }

/-- One iteration of the fan-out loop (server.go:554-567): skip the sender
and clients without a channel, otherwise attempt the non-blocking send.
Result: none on a Go panic, otherwise the updated entry together with 1
when the "Signal channel full" log line fired (the drop) and 0 otherwise. -/
def sendToPeer (sender payload : String) (now : Nat) (p : String × Client) :
    Option ((String × Client) × Nat) :=
  if p.1 = sender then some (p, 0)
  else
    match p.2.signal with
    | none => some (p, 0)
    | some ch =>
      match trySend ch (iceMessage sender payload now) with
      | none => none
      | some (ch', sent) =>
        some ((p.1, { p.2 with signal := some ch' }), if sent then 0 else 1)

/-- The whole fan-out: the loop over room.Clients under room.Mu.RLock
(server.go:553-568).  Returns the updated client map and the number of
"Signal channel full" log lines, or none if an iteration panicked. -/
def broadcastIce (sender payload : String) (now : Nat) :
    List (String × Client) → Option (List (String × Client) × Nat)
  | [] => some ([], 0)
  | p :: rest =>
    match sendToPeer sender payload now p with
    | none => none
    | some (p', d) =>
      match broadcastIce sender payload now rest with
      | none => none
      | some (rest', ds) => some (p' :: rest', d + ds)

/-! ## Room-level client lifecycle -/

/-- The critical sections that touch one room's client map:
  - join: joinRoomHandler lines 352-364 (insert a fresh client);
  - leave: leaveRoomHandler lines 404-418 (close the channel, remove);
  - connClosed: the OnConnectionStateChange handler lines 579-591 for a
    Closed or Failed peer-connection state (remove, nothing closed);
  - broadcast: the OnICECandidate fan-out lines 550-570. -/
inductive RoomOp where
  | join (cid userID username : String) (t : Nat)
  | leave (cid : String)
  | connClosed (cid : String)
  | broadcast (sender payload : String) (now : Nat)

/-- One critical section on a room's client map.  Each op holds room.Mu for
its whole body, so ops interleave atomically.  The result is the new client
map, the list of client IDs whose Signal channel got closed by the op
(close(client.Signal) sites), and the number of dropped deliveries;
none models a Go panic. -/
def roomStep (clients : List (String × Client)) :
    RoomOp → Option (List (String × Client) × List String × Nat)
  | .join cid uid uname t =>
    some (alistInsert clients cid (mkClient cid uid uname t), [], 0)
  | .leave cid =>
    match alistLookup clients cid with
    | none => some (clients, [], 0)
    | some _ => some (alistErase clients cid, [cid], 0)
  | .connClosed cid => some (alistErase clients cid, [], 0)
  | .broadcast sender payload now =>
    match broadcastIce sender payload now clients with
    | none => none
    | some (clients', drops) => some (clients', [], drops)

/-- A whole interleaving of critical sections on one room, accumulating the
close events and the drop count. -/
def roomRun (clients : List (String × Client)) :
    List RoomOp → Option (List (String × Client) × List String × Nat)
  | [] => some (clients, [], 0)
  | op :: ops =>
    match roomStep clients op with
    | none => none
    | some (c1, closes1, d1) =>
      match roomRun c1 ops with
      | none => none
      | some (c2, closes2, d2) => some (c2, closes1 ++ closes2, d1 + d2)

/-- A client whose Signal channel exists and is open (decidable form). -/
def clientOpen (cl : Client) : Prop :=
  Option.map SignalChan.closed cl.signal = some false

instance (cl : Client) : Decidable (clientOpen cl) := by
  unfold clientOpen; infer_instance

/-- The per-client invariant the room maintains: a real, open channel with
at most signalCapacity pending events. -/
def clientInv (cl : Client) : Prop :=
  ∃ ch, cl.signal = some ch ∧ ch.closed = false ∧ ch.buf.length ≤ signalCapacity

/-- What one fan-out iteration does to an entry, as a pure function: the
sender and channel-less clients are untouched, a non-full channel gets the
message appended, a full one is left as it is. -/
def deliverIce (sender payload : String) (now : Nat) (p : String × Client) :
    String × Client :=
  if p.1 = sender then p
  else
    match p.2.signal with
    | none => p
    | some ch =>
      if ch.buf.length < signalCapacity then
        let ch' : SignalChan := { ch with buf := ch.buf ++ [iceMessage sender payload now] }
        (p.1, { p.2 with signal := some ch' })
      else p

/-- Whether the fan-out drops the event for this entry (the default branch
of the select, the "Signal channel full" log line). -/
def droppedFor (sender : String) (p : String × Client) : Bool :=
  if p.1 = sender then false
  else
    match p.2.signal with
    | none => false
    | some ch => if ch.buf.length < signalCapacity then false else true

/-! ## Room registry (RoomManager, createRoomHandler, leaveRoomHandler) -/

/-- models.Room, with the fields the server logic touches. -/
structure Room where
  id : String
  name : String
  creatorID : String
  clients : List (String × Client)
  createdAt : Nat
  isActive : Bool
deriving DecidableEq

/-- models.RoomManager: the global registry of rooms. -/
structure RoomManager where
  rooms : List (String × Room)
deriving DecidableEq

/-- server.generateRoomID: fmt.Sprintf("room_%d", time.Now().UnixNano()),
with the nanosecond clock value t as a parameter. -/
def generateRoomID (t : Nat) : String := "room_" ++ Nat.repr t

/-- server.createRoomHandler (server.go:274-310), the registry mutation
under roomManager.Mu: build an empty active room keyed by generateRoomID
and assign it into the rooms map.  The handler never fails: it always
answers 200 with the new room's ID (returned here). -/
def createRoomHandler (rm : RoomManager) (userID name : String) (t : Nat) :
    RoomManager × String :=
  let roomID := generateRoomID t
  let room : Room := { id := roomID, name := name, creatorID := userID
                       clients := [], createdAt := t, isActive := true }
  ({ rooms := alistInsert rm.rooms roomID room }, roomID)

/-- The responses of leaveRoomHandler: 200, 404 "Room not found",
404 "Client not found". -/
inductive LeaveResult where
  | ok
  | roomNotFound
  | clientNotFound
deriving DecidableEq

/-- server.leaveRoomHandler (server.go:380-431): look the room up under the
registry read lock, then under room.Mu close the client's peer connection
and Signal channel and delete it from the map; a missing room or client is
a 404 with no side effect.  The middle component lists the client IDs whose
Signal channel was closed by the call. -/
def leaveRoomHandler (rm : RoomManager) (roomID clientID : String) :
    RoomManager × List String × LeaveResult :=
  match alistLookup rm.rooms roomID with
  | none => (rm, [], .roomNotFound)
  | some room =>
    match alistLookup room.clients clientID with
    | none => (rm, [], .clientNotFound)
    | some _ =>
      let room' := { room with clients := alistErase room.clients clientID }
      ({ rooms := alistInsert rm.rooms roomID room' }, [clientID], .ok)

/-! ## Authentication middleware (authMiddleware, server.go:145-173) -/

/-- auth.Claims: the identity a validated JWT carries. -/
structure Claims where
  userID : String
  username : String
deriving DecidableEq

/-- What the middleware does with a request: abort with 401 and an error
body, or attach the identity and continue. -/
inductive AuthOutcome where
  | unauthorized (errMsg : String)
  | ok (userID username : String)
deriving DecidableEq

/-- server.authMiddleware: read the Authorization header, fall back to the
token query parameter, reject an empty token, validate with
auth.ValidateJWT (abstracted as the validate argument: some claims for a
valid token, none for an invalid one), and on success attach user_id and
username to the request context. -/
def authMiddleware (validate : String → Option Claims) (header query : String) :
    AuthOutcome :=
  let tokenString := if header = "" then query else header
  if tokenString = "" then .unauthorized "Authorization token required"
  else
    match validate tokenString with
    | none => .unauthorized "Invalid token"
    | some c => .ok c.userID c.username

/-- A protected route's response, as far as the model distinguishes it. -/
inductive HttpResp where
  | ok
  | unauthorized (errMsg : String)
deriving DecidableEq

/-- A protected route: gin runs authMiddleware first and, because the
middleware calls c.Abort() on failure, the handler body only runs after a
successful validation.  The handler is arbitrary: it stands for any of the
protected room/chat/recording handlers. -/
def handleProtected (validate : String → Option Claims) (header query : String)
    (handler : String → String → RoomManager → RoomManager × HttpResp)
    (rm : RoomManager) : RoomManager × HttpResp :=
  match authMiddleware validate header query with
  | .unauthorized msg => (rm, .unauthorized msg)
  | .ok uid uname => handler uid uname rm

/-! ## Chat history (chat package) -/

/-- chat.Message. -/
structure Message where
  id : String
  roomID : String
  userID : String
  username : String
  content : String
  timestamp : Nat
deriving DecidableEq

/-- chat.ChatManager: per-room message logs. -/
structure ChatManager where
  rooms : List (String × List Message)
deriving DecidableEq

/-- A room's stored log; a missing key is Go's nil slice, the empty log. -/
def roomLog (cm : ChatManager) (roomID : String) : List Message :=
  (alistLookup cm.rooms roomID).getD []

/-- The log update inside ChatManager.AddMessage (chat.go:49-54): append
the new message, then drop the first element exactly when the length
exceeds 100. -/
def addMessageLog (msgs : List Message) (m : Message) : List Message :=
  let appended := msgs ++ [m]
  if appended.length > 100 then appended.drop 1 else appended

/-- chat.ChatManager.AddMessage (chat.go:34-57): build the message (the
uuid and clock are the msgID and now parameters) and apply the bounded
append to the room's log. -/
def AddMessage (cm : ChatManager) (roomID userID username content msgID : String)
    (now : Nat) : ChatManager × Message :=
  let m : Message := { id := msgID, roomID := roomID, userID := userID
                       username := username, content := content, timestamp := now }
  ({ rooms := alistInsert cm.rooms roomID (addMessageLog (roomLog cm roomID) m) }, m)

/-- chat.ChatManager.GetRecentMessages (chat.go:72-92): all messages when
count covers the log, otherwise the suffix starting at len - count.  The
source copies the slice before returning it, which value semantics renders
exactly: the result is an independent value of the stored log. -/
def GetRecentMessages (cm : ChatManager) (roomID : String) (count : Nat) :
    List Message :=
  let roomMessages := roomLog cm roomID
  if count ≥ roomMessages.length then roomMessages
  else roomMessages.drop (roomMessages.length - count)

/-! ## Recordings (recording package) -/

/-- recording.Recording.  EndedAt's zero value (Go's zero time.Time) is 0. -/
structure Recording where
  id : String
  roomID : String
  filename : String
  startedAt : Nat
  endedAt : Nat
  active : Bool
deriving DecidableEq

/-- recording.Recorder's registry of recordings, keyed by recording ID. -/
structure Recorder where
  recordings : List (String × Recording)
deriving DecidableEq

/-- recording.Recorder.StopRecording (recorder.go:77-97), under r.mu: a
missing or already-inactive recording is an error (some message) with the
registry untouched; otherwise the entry's Active flag is cleared and
EndedAt set to the current time. -/
def StopRecording (r : Recorder) (recordingID : String) (now : Nat) :
    Recorder × Option String :=
  match alistLookup r.recordings recordingID with
  | none => (r, some ("recording not found: " ++ recordingID))
  | some rec =>
    if rec.active = false then
      (r, some ("recording is not active: " ++ recordingID))
    else
      ({ recordings := alistInsert r.recordings recordingID
           { rec with active := false, endedAt := now } }, none)

/-! ## Concrete fixtures used by witness theorems -/

/-- A sender client with an empty open channel. -/
def wClientA : Client := mkClient "a" "uA" "alice" 0

/-- A client whose channel is full (signalCapacity pending events). -/
def wClientB : Client :=
  { mkClient "b" "uB" "bob" 0 with
    signal := some { closed := false, buf := List.replicate signalCapacity (iceMessage "w" "cand" 0) } }

/-- A client with an empty open channel. -/
def wClientC : Client := mkClient "c" "uC" "carol" 0

/-- A three-client room: the sender a, a full peer b, a free peer c. -/
def wClients : List (String × Client) := [("a", wClientA), ("b", wClientB), ("c", wClientC)]

/-! ## Association-list lemmas -/

theorem alistLookup_insert_self {β : Type} (m : List (String × β)) (k : String) (v : β) :
    alistLookup (alistInsert m k v) k = some v := by
  induction m with
  | nil => simp [alistInsert, alistLookup]
  | cons p rest ih =>
    by_cases h : p.1 = k <;> simp [alistInsert, alistLookup, h, ih]

theorem alistLookup_insert_ne {β : Type} (m : List (String × β)) (k k' : String) (v : β)
    (h : k' ≠ k) : alistLookup (alistInsert m k v) k' = alistLookup m k' := by
  have h' : ¬ k = k' := fun hh => h hh.symm
  induction m with
  | nil => simp [alistInsert, alistLookup, h']
  | cons p rest ih =>
    by_cases hp : p.1 = k
    · simp [alistInsert, alistLookup, hp, h']
    · simp [alistInsert, alistLookup, hp, ih]

theorem alistLookup_erase_self {β : Type} (m : List (String × β)) (k : String) :
    alistLookup (alistErase m k) k = none := by
  induction m with
  | nil => simp [alistErase, alistLookup]
  | cons p rest ih =>
    by_cases h : p.1 = k <;> simp [alistErase, alistLookup, h, ih]

theorem mem_alistInsert {β : Type} (m : List (String × β)) (k : String) (v : β)
    (p : String × β) (hp : p ∈ alistInsert m k v) : p = (k, v) ∨ p ∈ m := by
  induction m with
  | nil =>
    simp only [alistInsert, List.mem_singleton] at hp
    exact Or.inl hp
  | cons q rest ih =>
    by_cases h : q.1 = k
    · simp only [alistInsert, h, if_true, List.mem_cons] at hp
      rcases hp with hp | hp
      · exact Or.inl hp
      · exact Or.inr (List.mem_cons_of_mem _ hp)
    · simp only [alistInsert, h, if_false, List.mem_cons] at hp
      rcases hp with hp | hp
      · exact Or.inr (hp ▸ List.mem_cons_self _ _)
      · rcases ih hp with hh | hh
        · exact Or.inl hh
        · exact Or.inr (List.mem_cons_of_mem _ hh)

theorem mem_alistErase {β : Type} (m : List (String × β)) (k : String)
    (p : String × β) (hp : p ∈ alistErase m k) : p ∈ m := by
  induction m with
  | nil => simp only [alistErase] at hp; exact hp
  | cons q rest ih =>
    by_cases h : q.1 = k
    · simp only [alistErase, h, if_true] at hp
      exact List.mem_cons_of_mem _ (ih hp)
    · simp only [alistErase, h, if_false, List.mem_cons] at hp
      rcases hp with hp | hp
      · exact hp ▸ List.mem_cons_self _ _
      · exact List.mem_cons_of_mem _ (ih hp)

/-! ## The fan-out characterised as a pure map -/

/-- When every client in the map holds an open channel (the situation every
reachable room state is in), the fan-out loop never panics: it returns the
entry-wise deliverIce update and counts one drop per full recipient. -/
theorem broadcastIce_eq_of_open (sender payload : String) (now : Nat)
    (clients : List (String × Client)) (h : ∀ p ∈ clients, clientOpen p.2) :
    broadcastIce sender payload now clients =
      some (clients.map (deliverIce sender payload now),
            List.countP (droppedFor sender) clients) := by
  induction clients with
  | nil => simp [broadcastIce]
  | cons p rest ih =>
    have hp : clientOpen p.2 := h p (List.mem_cons_self _ _)
    have hrest := ih (fun q hq => h q (List.mem_cons_of_mem _ hq))
    obtain ⟨ch, hch, hcl⟩ := Option.map_eq_some'.mp hp
    have hpeq : ({ p.2 with signal := some ch } : Client) = p.2 := by
      rw [← hch]
    by_cases hs : p.1 = sender
    · simp [broadcastIce, sendToPeer, hs, hrest, deliverIce, droppedFor,
        List.countP_cons, Nat.add_comm]
    · by_cases hfull : ch.buf.length < signalCapacity
      · simp [broadcastIce, sendToPeer, hs, hch, trySend, hcl, hfull, hrest,
          deliverIce, droppedFor, List.countP_cons, Nat.add_comm]
      · simp only [broadcastIce, sendToPeer, hs, if_false, hch, trySend, hcl,
          Bool.false_eq_true, hfull, if_true, ite_false, hrest, List.countP_cons]
        simp [hpeq, deliverIce, hs, hch, hfull, droppedFor, Nat.add_comm]

/-- C1: the ICE-candidate fan-out from client sender never enqueues onto the
sender's own Signal channel; every other registered client's channel receives
the event unless it is full, in which case the event is dropped and the drop
counted (one "Signal channel full" log line per full peer), and the loop
returns normally — no panic or error reaches the sender.  The hypothesis
that every channel in the map exists and is open is the reachable-state
invariant proved in c2_channel_invariant's development. -/
theorem c1_broadcast_spec (sender payload : String) (now : Nat)
    (clients : List (String × Client)) (h : ∀ p ∈ clients, clientOpen p.2) :
    ∃ out drops, broadcastIce sender payload now clients = some (out, drops) ∧
      drops = List.countP (droppedFor sender) clients ∧
      List.Forall₂ (fun p q : String × Client =>
        q.1 = p.1 ∧ (p.1 = sender → q = p) ∧
        (p.1 ≠ sender → ∀ ch, p.2.signal = some ch →
          (ch.buf.length < signalCapacity →
            q.2.signal = some { ch with buf := ch.buf ++ [iceMessage sender payload now] }) ∧
          (signalCapacity ≤ ch.buf.length → q = p))) clients out := by
  refine ⟨clients.map (deliverIce sender payload now),
    List.countP (droppedFor sender) clients,
    broadcastIce_eq_of_open sender payload now clients h, rfl, ?_⟩
  rw [List.forall₂_map_right_iff]
  rw [List.forall₂_same]
  intro p _
  by_cases hs : p.1 = sender
  · exact ⟨by simp [deliverIce, hs], fun _ => by simp [deliverIce, hs], fun hns => absurd hs hns⟩
  · refine ⟨?_, fun hc => absurd hc hs, fun _ ch hch => ⟨fun hlt => ?_, fun hge => ?_⟩⟩
    · unfold deliverIce
      rw [if_neg hs]
      cases hsig : p.2.signal with
      | none => rfl
      | some ch => by_cases hlt : ch.buf.length < signalCapacity <;> simp [hlt]
    · simp [deliverIce, hs, hch, hlt]
    · have hnlt : ¬ ch.buf.length < signalCapacity := Nat.not_lt.mpr hge
      simp [deliverIce, hs, hch, hnlt]

/-- C1 witness: the fan-out from a over the concrete three-client room (a
itself, the full peer b, the free peer c). -/
theorem c1_broadcast_witness :
    (∀ p ∈ wClients, clientOpen p.2) ∧
    (∃ out drops, broadcastIce "a" "sdp" 7 wClients = some (out, drops) ∧
      drops = List.countP (droppedFor "a") wClients ∧
      List.Forall₂ (fun p q : String × Client =>
        q.1 = p.1 ∧ (p.1 = "a" → q = p) ∧
        (p.1 ≠ "a" → ∀ ch, p.2.signal = some ch →
          (ch.buf.length < signalCapacity →
            q.2.signal = some { ch with buf := ch.buf ++ [iceMessage "a" "sdp" 7] }) ∧
          (signalCapacity ≤ ch.buf.length → q = p))) wClients out) :=
  ⟨by decide, c1_broadcast_spec "a" "sdp" 7 wClients (by decide)⟩

/-- C6: every event the fan-out delivers is the stamped message: sender_id
is the sending client's ID, the timestamp is the fan-out time, and the data
field is the candidate payload passed through byte-for-byte — each
recipient's buffer either is unchanged or gains exactly that one message,
so the router never parses or alters the SDP/ICE contents. -/
theorem c6_stamp_spec (sender payload : String) (now : Nat)
    (clients : List (String × Client)) (h : ∀ p ∈ clients, clientOpen p.2) :
    (iceMessage sender payload now).senderID = sender ∧
    (iceMessage sender payload now).data = payload ∧
    (iceMessage sender payload now).timestamp = now ∧
    ∃ out, broadcastIce sender payload now clients =
        some (out, List.countP (droppedFor sender) clients) ∧
      List.Forall₂ (fun p q : String × Client =>
        ∀ ch ch', p.2.signal = some ch → q.2.signal = some ch' →
          ch'.buf = ch.buf ∨ ch'.buf = ch.buf ++ [iceMessage sender payload now])
        clients out := by
  refine ⟨rfl, rfl, rfl, clients.map (deliverIce sender payload now),
    broadcastIce_eq_of_open sender payload now clients h, ?_⟩
  rw [List.forall₂_map_right_iff]
  rw [List.forall₂_same]
  intro p _ ch ch' hch hch'
  by_cases hs : p.1 = sender
  · simp only [deliverIce, hs, if_true] at hch'
    rw [hch] at hch'
    exact Or.inl (by cases hch'; rfl)
  · simp only [deliverIce, hs, if_false, hch] at hch'
    by_cases hlt : ch.buf.length < signalCapacity
    · rw [if_pos hlt] at hch'
      simp only [Option.some.injEq] at hch'
      exact Or.inr (by rw [← hch'])
    · rw [if_neg hlt] at hch'
      rw [hch] at hch'
      exact Or.inl (by cases hch'; rfl)

/-- C6 witness: the fan-out from c over the concrete three-client room. -/
theorem c6_stamp_witness :
    (∀ p ∈ wClients, clientOpen p.2) ∧
    ((iceMessage "c" "blob" 3).senderID = "c" ∧
    (iceMessage "c" "blob" 3).data = "blob" ∧
    (iceMessage "c" "blob" 3).timestamp = 3 ∧
    ∃ out, broadcastIce "c" "blob" 3 wClients =
        some (out, List.countP (droppedFor "c") wClients) ∧
      List.Forall₂ (fun p q : String × Client =>
        ∀ ch ch', p.2.signal = some ch → q.2.signal = some ch' →
          ch'.buf = ch.buf ∨ ch'.buf = ch.buf ++ [iceMessage "c" "blob" 3])
        wClients out) :=
  ⟨by decide, c6_stamp_spec "c" "blob" 3 wClients (by decide)⟩

/-! ## The reachable-state channel invariant (claim C2) -/

/-- Every client satisfying the room invariant holds an open channel. -/
theorem clientInv_open (cl : Client) (h : clientInv cl) : clientOpen cl := by
  obtain ⟨ch, hch, hcl, _⟩ := h
  simp [clientOpen, hch, hcl]

/-- One critical section preserves the per-client invariant and never
panics. -/
theorem roomStep_inv (clients : List (String × Client))
    (h : ∀ p ∈ clients, clientInv p.2) (op : RoomOp) :
    ∃ c closes d, roomStep clients op = some (c, closes, d) ∧
      ∀ p ∈ c, clientInv p.2 := by
  cases op with
  | join cid uid uname t =>
    refine ⟨_, _, _, rfl, ?_⟩
    intro p hp
    rcases mem_alistInsert _ _ _ _ hp with hh | hh
    · rw [hh]
      exact ⟨{ closed := false, buf := [] }, rfl, rfl, by simp⟩
    · exact h p hh
  | leave cid =>
    cases hl : alistLookup clients cid with
    | none => exact ⟨clients, [], 0, by simp [roomStep, hl], h⟩
    | some cl =>
      exact ⟨alistErase clients cid, [cid], 0, by simp [roomStep, hl],
        fun p hp => h p (mem_alistErase _ _ _ hp)⟩
  | connClosed cid =>
    exact ⟨alistErase clients cid, [], 0, rfl,
      fun p hp => h p (mem_alistErase _ _ _ hp)⟩
  | broadcast sender payload now =>
    have hopen : ∀ p ∈ clients, clientOpen p.2 :=
      fun p hp => clientInv_open _ (h p hp)
    refine ⟨clients.map (deliverIce sender payload now), [],
      List.countP (droppedFor sender) clients, ?_, ?_⟩
    · simp [roomStep, broadcastIce_eq_of_open sender payload now clients hopen]
    · intro q hq
      obtain ⟨p, hp, hqeq⟩ := List.mem_map.mp hq
      obtain ⟨ch, hch, hcl, hlen⟩ := h p hp
      subst hqeq
      by_cases hs : p.1 = sender
      · simpa [deliverIce, hs] using h p hp
      · by_cases hlt : ch.buf.length < signalCapacity
        · refine ⟨{ ch with buf := ch.buf ++ [iceMessage sender payload now] },
            ?_, hcl, ?_⟩
          · simp [deliverIce, hs, hch, hlt]
          · simpa using hlt
        · simpa [deliverIce, hs, hch, hlt] using h p hp

/-- Every interleaving of critical sections preserves the invariant and
never panics. -/
theorem roomRun_inv (ops : List RoomOp) (clients : List (String × Client))
    (h : ∀ p ∈ clients, clientInv p.2) :
    ∃ c closes d, roomRun clients ops = some (c, closes, d) ∧
      ∀ p ∈ c, clientInv p.2 := by
  induction ops generalizing clients with
  | nil => exact ⟨clients, [], 0, rfl, h⟩
  | cons op ops ih =>
    obtain ⟨c1, closes1, d1, hstep, h1⟩ := roomStep_inv clients h op
    obtain ⟨c2, closes2, d2, hrun, h2⟩ := ih c1 h1
    exact ⟨c2, closes1 ++ closes2, d1 + d2, by simp [roomRun, hstep, hrun], h2⟩

/-- C2: starting from an empty room, after any interleaving of join, leave,
connection-teardown and fan-out critical sections, every client's Signal
channel exists, holds at most its fixed capacity of 100 pending events, and
is open — the run itself always returns (some), i.e. no Go panic: since a
send on a closed channel is the only panic site (trySend's none) and closed
channels never remain in the client map (close(client.Signal) happens in
the same critical section as the delete), no enqueue is ever attempted on a
closed channel, so every enqueue the program performs is the non-blocking
select that either appends or drops — never blocks, never panics. -/
theorem c2_channel_capacity (ops : List RoomOp) :
    ∃ clients closes drops, roomRun [] ops = some (clients, closes, drops) ∧
      ∀ p ∈ clients, ∃ ch, p.2.signal = some ch ∧ ch.closed = false ∧
        ch.buf.length ≤ signalCapacity := by
  obtain ⟨c, closes, d, hrun, hinv⟩ := roomRun_inv ops [] (by simp)
  exact ⟨c, closes, d, hrun, fun p hp => hinv p hp⟩

/-! ## Client teardown (claims C3 and C4) -/

/-- C3 counterexample: the run join c1 followed by the transport reporting
a Closed/Failed state destroys c1 (it is gone from the client map), yet the
list of close(client.Signal) events of the whole run is empty: on this
destruction path the Signal channel is closed zero times, not exactly once
— the OnConnectionStateChange handler (server.go:583-586) only deletes the
map entry and never closes the channel, unlike the explicit-leave path. -/
theorem c3_conn_close_counterexample :
    roomRun [] [RoomOp.join "c1" "u1" "alice" 0, RoomOp.connClosed "c1"] =
      some ([], [], 0) ∧
    List.count "c1" ([] : List String) = 0 := by
  constructor
  · rfl
  · rfl

/-- C3 amended: on an explicit leave of a registered client the Signal
channel is closed exactly once and the client is removed from the room's
client map; on a transport Closed/Failed state the client is removed from
the map but its Signal channel is not closed (zero close events). -/
theorem c3_teardown_amended (clients : List (String × Client)) (cid : String)
    (cl : Client) (h : alistLookup clients cid = some cl) :
    roomStep clients (RoomOp.leave cid) = some (alistErase clients cid, [cid], 0) ∧
    roomStep clients (RoomOp.connClosed cid) = some (alistErase clients cid, [], 0) ∧
    alistLookup (alistErase clients cid) cid = none := by
  refine ⟨?_, rfl, alistLookup_erase_self _ _⟩
  simp [roomStep, h]

/-- C3 witness: tearing client a down in the concrete three-client room. -/
theorem c3_teardown_witness :
    alistLookup wClients "a" = some wClientA ∧
    (roomStep wClients (RoomOp.leave "a") = some (alistErase wClients "a", ["a"], 0) ∧
    roomStep wClients (RoomOp.connClosed "a") = some (alistErase wClients "a", [], 0) ∧
    alistLookup (alistErase wClients "a") "a" = none) :=
  ⟨by decide, c3_teardown_amended wClients "a" wClientA (by decide)⟩

/-- C4: after a first removal of a client succeeded (HTTP 200), removing the
same client from the same room again reports Client not found (404) and has
no side effect: no Signal channel is closed by the second call and the
registry — in particular the room's client map — is returned exactly as it
was. -/
theorem c4_second_leave_not_found (rm rm1 : RoomManager)
    (roomID clientID : String) (closes : List String)
    (h : leaveRoomHandler rm roomID clientID = (rm1, closes, LeaveResult.ok)) :
    leaveRoomHandler rm1 roomID clientID = (rm1, [], LeaveResult.clientNotFound) := by
  unfold leaveRoomHandler at h
  split at h
  · simp at h
  · split at h
    · simp at h
    · simp only [Prod.mk.injEq] at h
      obtain ⟨hrm1, -, -⟩ := h
      subst hrm1
      simp only [leaveRoomHandler, alistLookup_insert_self, alistLookup_erase_self]

/-- The concrete one-room, one-client registry for the C4 witness. -/
def wRoomManager : RoomManager :=
  { rooms := [("r", { id := "r", name := "standup", creatorID := "uA"
                      clients := [("a", wClientA)], createdAt := 0, isActive := true })] }

/-- The registry after a's successful removal from room r. -/
def wRoomManagerAfter : RoomManager :=
  { rooms := [("r", { id := "r", name := "standup", creatorID := "uA"
                      clients := [], createdAt := 0, isActive := true })] }

/-- C4 witness: removing a from room r once succeeds; the second removal
reports Client not found and returns the registry unchanged. -/
theorem c4_second_leave_witness :
    leaveRoomHandler wRoomManager "r" "a" = (wRoomManagerAfter, ["a"], LeaveResult.ok) ∧
    leaveRoomHandler wRoomManagerAfter "r" "a" =
      (wRoomManagerAfter, [], LeaveResult.clientNotFound) :=
  ⟨by decide, c4_second_leave_not_found wRoomManager wRoomManagerAfter "r" "a" ["a"] (by decide)⟩

/-! ## Chat history (claims C5 and C9) -/

/-- The bounded append, folded from any start of length at most 100, keeps
exactly the suffix of the inserted sequence that fits in 100 slots. -/
theorem foldl_addMessageLog (ms : List Message) (start : List Message)
    (hs : start.length ≤ 100) :
    List.foldl addMessageLog start ms =
      (start ++ ms).drop (start.length + ms.length - 100) := by
  induction ms generalizing start with
  | nil => simp [Nat.sub_eq_zero_of_le hs]
  | cons m ms ih =>
    rw [List.foldl_cons]
    by_cases hb : 100 < start.length + 1
    · have h100 : start.length = 100 := by omega
      have hstep : addMessageLog start m = (start ++ [m]).drop 1 := by
        simp only [addMessageLog]
        rw [if_pos (by simp [h100])]
      have hlen : ((start ++ [m]).drop 1).length ≤ 100 := by simp [h100]
      rw [hstep, ih _ hlen]
      have hd : (start ++ [m]).drop 1 ++ ms = ((start ++ [m]) ++ ms).drop 1 :=
        (List.drop_append_of_le_length (by simp)).symm
      rw [hd, List.drop_drop, List.append_assoc, List.singleton_append]
      have hidx : 1 + (((start ++ [m]).drop 1).length + ms.length - 100) =
          start.length + (m :: ms).length - 100 := by
        simp only [List.length_drop, List.length_append, List.length_cons,
          List.length_nil]
        omega
      rw [hidx]
    · have hstep : addMessageLog start m = start ++ [m] := by
        simp only [addMessageLog]
        rw [if_neg (by simp; omega)]
      rw [hstep, ih _ (by simp; omega), List.append_assoc, List.singleton_append]
      have hidx : (start ++ [m]).length + ms.length - 100 =
          start.length + (m :: ms).length - 100 := by
        simp only [List.length_append, List.length_cons, List.length_nil]
        omega
      rw [hidx]

/-- C5: inserting more than 100 messages into a fresh room log retains
exactly the last 100 in arrival order; the stored log has length 100; and
at the boundary, the insert into a log holding exactly 100 messages drops
precisely the oldest stored message and no other (the log becomes its tail
followed by the new message). -/
theorem c5_chat_bounded (ms : List Message) (h : 100 < ms.length) :
    List.foldl addMessageLog [] ms = ms.drop (ms.length - 100) ∧
    (List.foldl addMessageLog [] ms).length = 100 ∧
    ∀ (l : List Message) (m : Message), l.length = 100 →
      addMessageLog l m = l.drop 1 ++ [m] := by
  have h0 := foldl_addMessageLog ms [] (by simp)
  simp only [List.length_nil, List.nil_append, Nat.zero_add] at h0
  refine ⟨h0, ?_, ?_⟩
  · rw [h0, List.length_drop]
    omega
  · intro l m hl
    simp only [addMessageLog]
    rw [if_pos (by simp [hl]), List.drop_append_of_le_length (by simp [hl])]

/-- A concrete chat message for the C5 witness. -/
def wMessage : Message :=
  { id := "m", roomID := "r", userID := "u", username := "alice"
    content := "hi", timestamp := 0 }

/-- 101 inserted messages for the C5 witness. -/
def wMsgs : List Message := List.replicate 101 wMessage

/-- C5 witness: inserting 101 concrete messages into a fresh log. -/
theorem c5_chat_witness :
    100 < wMsgs.length ∧
    (List.foldl addMessageLog [] wMsgs = wMsgs.drop (wMsgs.length - 100) ∧
    (List.foldl addMessageLog [] wMsgs).length = 100 ∧
    ∀ (l : List Message) (m : Message), l.length = 100 →
      addMessageLog l m = l.drop 1 ++ [m]) :=
  ⟨by decide, c5_chat_bounded wMsgs (by decide)⟩

/-- C9: GetRecentMessages returns exactly the last min(count, stored)
messages of the room's log in stored order — the suffix dropping
length - count from the front — for every room and every count.  The result
is built by make + copy in the source (chat.go:81-89), so it is a fresh
slice: under the value semantics of this model the stored log is a value
the call never modifies. -/
theorem c9_recent_messages (cm : ChatManager) (roomID : String) (count : Nat) :
    GetRecentMessages cm roomID count =
      (roomLog cm roomID).drop ((roomLog cm roomID).length - count) ∧
    (GetRecentMessages cm roomID count).length =
      min count (roomLog cm roomID).length := by
  simp only [GetRecentMessages]
  by_cases hc : count ≥ (roomLog cm roomID).length
  · rw [if_pos hc, Nat.sub_eq_zero_of_le hc, List.drop_zero]
    exact ⟨rfl, (Nat.min_eq_right hc).symm⟩
  · rw [if_neg hc]
    refine ⟨rfl, ?_⟩
    rw [List.length_drop]
    omega

/-! ## Recording teardown (claim C10) -/

/-- C10: StopRecording errs exactly on the two guard paths — a recording
absent from the registry, or one already inactive — and in either error
case returns the registry untouched; on the success path it clears the
Active flag and stamps EndedAt with the current time, and every other
recording's entry is exactly as it was. -/
theorem c10_stop_recording (r : Recorder) (recordingID : String) (now : Nat) :
    (alistLookup r.recordings recordingID = none →
      StopRecording r recordingID now =
        (r, some ("recording not found: " ++ recordingID))) ∧
    (∀ rec, alistLookup r.recordings recordingID = some rec → rec.active = false →
      StopRecording r recordingID now =
        (r, some ("recording is not active: " ++ recordingID))) ∧
    (∀ rec, alistLookup r.recordings recordingID = some rec → rec.active = true →
      StopRecording r recordingID now =
        ({ recordings := alistInsert r.recordings recordingID
             { rec with active := false, endedAt := now } }, none) ∧
      alistLookup (StopRecording r recordingID now).1.recordings recordingID =
        some { rec with active := false, endedAt := now } ∧
      ∀ k, k ≠ recordingID →
        alistLookup (StopRecording r recordingID now).1.recordings k =
          alistLookup r.recordings k) := by
  refine ⟨fun h => by simp [StopRecording, h], fun rec h ha => by simp [StopRecording, h, ha], ?_⟩
  intro rec h ha
  have hmain : StopRecording r recordingID now =
      ({ recordings := alistInsert r.recordings recordingID
           { rec with active := false, endedAt := now } }, none) := by
    simp [StopRecording, h, ha]
  refine ⟨hmain, ?_, ?_⟩
  · rw [hmain]
    exact alistLookup_insert_self _ _ _
  · intro k hk
    rw [hmain]
    exact alistLookup_insert_ne _ _ _ _ hk

/-! ## Authentication gate (claim C8) -/

/-- C8: a protected request whose identity token is missing (empty header
and empty query fallback) or invalid (ValidateJWT fails) is answered 401
Unauthorized by the middleware, which aborts before the route handler runs:
whatever the handler would have done — it is universally quantified here —
the registry (room and client maps) comes back exactly as it was. -/
theorem c8_auth_rejects (validate : String → Option Claims) (header query : String)
    (handler : String → String → RoomManager → RoomManager × HttpResp)
    (rm : RoomManager)
    (h : (if header = "" then query else header) = "" ∨
         validate (if header = "" then query else header) = none) :
    ∃ errMsg, handleProtected validate header query handler rm =
      (rm, HttpResp.unauthorized errMsg) := by
  by_cases he : (if header = "" then query else header) = ""
  · exact ⟨"Authorization token required",
      by simp [handleProtected, authMiddleware, he]⟩
  · have hv : validate (if header = "" then query else header) = none := by
      rcases h with h | h
      · exact absurd h he
      · exact h
    exact ⟨"Invalid token", by simp [handleProtected, authMiddleware, he, hv]⟩

/-- C8 witness: a request with an invalid bearer token against the concrete
one-room registry, for an arbitrary concrete handler. -/
theorem c8_auth_witness :
    ((if ("Bearer bad" : String) = "" then "" else "Bearer bad") = "" ∨
      (fun _ => (none : Option Claims))
        (if ("Bearer bad" : String) = "" then "" else "Bearer bad") = none) ∧
    ∃ errMsg, handleProtected (fun _ => none) "Bearer bad" ""
        (fun _ _ s => (s, HttpResp.ok)) wRoomManager =
      (wRoomManager, HttpResp.unauthorized errMsg) :=
  ⟨by decide, c8_auth_rejects (fun _ => none) "Bearer bad" ""
    (fun _ _ s => (s, HttpResp.ok)) wRoomManager (by decide)⟩

/-! ## Room identifiers (claim C7)

generateRoomID renders the nanosecond clock in decimal (Go's fmt %d,
Lean's Nat.repr).  The lemmas below prove the decimal rendering injective,
so identifiers of create calls at distinct timestamps are distinct — and
the counterexample shows that two calls at the same timestamp share one
identifier, the second silently replacing the first room. -/

theorem toDigitsCore_digits (fuel : Nat) :
    ∀ (n : Nat) (acc : List Char), 0 < n → n < fuel →
    Nat.toDigitsCore 10 fuel n acc =
      ((Nat.digits 10 n).map Nat.digitChar).reverse ++ acc := by
  induction fuel with
  | zero => intro n acc hn hfuel; omega
  | succ f ih =>
    intro n acc hn hfuel
    by_cases h0 : n / 10 = 0
    · rw [Nat.digits_def' (by norm_num) hn, h0]
      simp [Nat.toDigitsCore, h0]
    · have hn' : 0 < n / 10 := Nat.pos_of_ne_zero h0
      have hlt : n / 10 < f := by
        have hdn : n / 10 < n := Nat.div_lt_self hn (by norm_num)
        omega
      rw [Nat.digits_def' (by norm_num) hn]
      simp only [Nat.toDigitsCore, h0, if_false]
      rw [ih (n / 10) (Nat.digitChar (n % 10) :: acc) hn' hlt]
      simp [List.reverse_cons, List.append_assoc]

theorem toDigits_eq_digits (n : Nat) (hn : 0 < n) :
    Nat.toDigits 10 n = ((Nat.digits 10 n).map Nat.digitChar).reverse := by
  have h := toDigitsCore_digits (n + 1) n [] hn (Nat.lt_succ_self n)
  simpa [Nat.toDigits] using h

theorem digitChar_inj_lt : ∀ a < 10, ∀ b < 10,
    Nat.digitChar a = Nat.digitChar b → a = b := by decide

theorem map_digitChar_inj : ∀ (l1 l2 : List Nat), (∀ x ∈ l1, x < 10) →
    (∀ x ∈ l2, x < 10) → l1.map Nat.digitChar = l2.map Nat.digitChar → l1 = l2 := by
  intro l1
  induction l1 with
  | nil =>
    intro l2 _ _ h
    cases l2 with
    | nil => rfl
    | cons b t => simp at h
  | cons a l1 ih =>
    intro l2 h1 h2 h
    cases l2 with
    | nil => simp at h
    | cons b l2 =>
      simp only [List.map_cons, List.cons.injEq] at h
      have hab := digitChar_inj_lt a (h1 a (List.mem_cons_self _ _))
        b (h2 b (List.mem_cons_self _ _)) h.1
      rw [hab, ih l2 (fun x hx => h1 x (List.mem_cons_of_mem _ hx))
        (fun x hx => h2 x (List.mem_cons_of_mem _ hx)) h.2]

theorem toDigits_inj_pos (m n : Nat) (hm : 0 < m) (hn : 0 < n)
    (h : Nat.toDigits 10 m = Nat.toDigits 10 n) : m = n := by
  rw [toDigits_eq_digits m hm, toDigits_eq_digits n hn] at h
  have h' := congrArg List.reverse h
  simp only [List.reverse_reverse] at h'
  have hdig := map_digitChar_inj _ _
    (fun x hx => Nat.digits_lt_base (by norm_num) hx)
    (fun x hx => Nat.digits_lt_base (by norm_num) hx) h'
  have h2 := congrArg (Nat.ofDigits 10) hdig
  rwa [Nat.ofDigits_digits, Nat.ofDigits_digits] at h2

theorem toDigits_zero_ne_pos (n : Nat) (hn : 0 < n) :
    Nat.toDigits 10 0 ≠ Nat.toDigits 10 n := by
  intro h
  rw [toDigits_eq_digits n hn] at h
  have h0 : Nat.toDigits 10 0 = ['0'] := rfl
  rw [h0] at h
  have h' := congrArg List.reverse h
  simp only [List.reverse_reverse] at h'
  cases hd : Nat.digits 10 n with
  | nil => rw [hd] at h'; simp at h'
  | cons a t =>
    rw [hd] at h'
    simp only [List.map_cons] at h'
    have hrev : (['0'] : List Char).reverse = ['0'] := rfl
    rw [hrev] at h'
    have hh : ('0' : Char) = Nat.digitChar a ∧ t.map Nat.digitChar = [] := by
      constructor
      · exact (List.cons.injEq _ _ _ _ ▸ h').1
      · exact (List.cons.injEq _ _ _ _ ▸ h').2.symm
    have ht : t = [] := List.map_eq_nil_iff.mp hh.2
    have ha : a < 10 := Nat.digits_lt_base (by norm_num) (hd ▸ List.mem_cons_self a t)
    have ha0 : a = 0 := digitChar_inj_lt a ha 0 (by norm_num) (by rw [← hh.1]; rfl)
    have hdigits : Nat.digits 10 n = [0] := by rw [hd, ht, ha0]
    have hzero : n = 0 := by
      have h3 := (Nat.ofDigits_digits 10 n).symm
      rw [hdigits] at h3
      simpa [Nat.ofDigits] using h3
    omega

theorem repr_injective : Function.Injective Nat.repr := by
  intro m n h
  have hdig : Nat.toDigits 10 m = Nat.toDigits 10 n := by
    have hd := congrArg String.data h
    simpa [Nat.repr, List.asString] using hd
  rcases Nat.eq_zero_or_pos m with hm | hm <;> rcases Nat.eq_zero_or_pos n with hn | hn
  · rw [hm, hn]
  · exact absurd (hm ▸ hdig) (toDigits_zero_ne_pos n hn)
  · exact absurd (hn ▸ hdig).symm (toDigits_zero_ne_pos m hm)
  · exact toDigits_inj_pos m n hm hn hdig

theorem generateRoomID_injective : Function.Injective generateRoomID := by
  intro a b h
  apply repr_injective
  have hd := congrArg String.data h
  simp only [generateRoomID, String.data_append] at hd
  exact String.ext (List.append_cancel_left hd)

/-- C7 counterexample: two create-room calls that observe the same
nanosecond timestamp (UnixNano has nanosecond granularity and the clock
can repeat a reading) return the same room identifier — not a fresh one
distinct from every previously created room's — and the registry then
holds one room, the second create having replaced the first. -/
theorem c7_duplicate_id_counterexample :
    (createRoomHandler { rooms := [] } "u" "first" 5).2 =
      (createRoomHandler (createRoomHandler { rooms := [] } "u" "first" 5).1
        "u" "second" 5).2 ∧
    ((createRoomHandler (createRoomHandler { rooms := [] } "u" "first" 5).1
        "u" "second" 5).1).rooms.length = 1 := by
  exact ⟨rfl, rfl⟩

/-- C7 amended: every create-room call succeeds and returns the identifier
room_t rendered from its nanosecond timestamp t; it stores a new empty
active room under that identifier (replacing any room that already held the
identifier) and leaves every other registry entry unchanged; identifiers
allocated at distinct timestamps are distinct (the decimal rendering is
injective), so room identifiers are globally unique provided no two create
calls observe the same nanosecond reading. -/
theorem c7_create_room_amended (rm : RoomManager) (userID name : String) (t : Nat) :
    (createRoomHandler rm userID name t).2 = generateRoomID t ∧
    alistLookup (createRoomHandler rm userID name t).1.rooms (generateRoomID t) =
      some { id := generateRoomID t, name := name, creatorID := userID
             clients := [], createdAt := t, isActive := true } ∧
    (∀ k, k ≠ generateRoomID t →
      alistLookup (createRoomHandler rm userID name t).1.rooms k =
        alistLookup rm.rooms k) ∧
    Function.Injective generateRoomID := by
  refine ⟨rfl, ?_, ?_, generateRoomID_injective⟩
  · exact alistLookup_insert_self _ _ _
  · intro k hk
    exact alistLookup_insert_ne _ _ _ _ hk

end CallsMvp
